import Mathlib

/-!
Shallow embedding of the agent layer of the `mrLSD/simulation` stablecoin
simulation (`src/simulation/agents/marketplayer.py` and
`src/simulation/agents/banker.py`), together with the small parts of the
surrounding model (prices, fee manager, order books, display rounding) that
those agents consult, modelled from the specification where the corresponding
module is not among the sources.  Python `Decimal` quantities are embedded as
exact rationals (`ℚ`), following the specification's requirement that internal
accounting remain exact.
-/

namespace Simulation

/-- Algebraic error conditions of the core, from the specification's error
taxonomy; the agent layer only ever observes `EmptyBook`. -/
inductive SimError where
  | EmptyBook
  | OrderNotActive
deriving DecidableEq, Repr

/-- Side of a limit order. -/
inductive Side where
  | bid
  | ask
deriving DecidableEq, Repr

/-- Modelled from the spec: a limit order as the agent layer sees it —
`price`, `quantity` (the requested, remaining amount), its side and its
owner's id (the `orderbook` module is not among the sources). -/
structure LimitOrder where
  side : Side
  price : ℚ
  quantity : ℚ
  owner_id : ℕ
deriving DecidableEq, Repr

/-- Modelled from the spec: an order book reduced to the data the agent layer
consults — the multiset of resting ask prices (the `orderbook` module is not
among the sources; bids and matching are never read by the claims below). -/
structure OrderBook where
  ask_prices : List ℚ
deriving DecidableEq, Repr

/-- Modelled from the spec: the shared model context (`model.Havven`,
`fee_manager`, `market_manager`, `managers` are not among the sources):
current fiat prices of the two tokens, the per-asset multiplicative fee
rates, the three order books, and the display precision. -/
structure Havven where
  curit_price : ℚ
  nomin_price : ℚ
  fiat_fee_rate : ℚ
  nomin_fee_rate : ℚ
  curit_fee_rate : ℚ
  curit_fiat_market : OrderBook
  nomin_fiat_market : OrderBook
  curit_nomin_market : OrderBook
  currency_precision : ℕ
deriving DecidableEq, Repr

/-- Modelled from the spec: `model.fiat_value` converts token quantities to
fiat at the current model prices. -/
def fiat_value (h : Havven) (curits nomins fiat : ℚ) : ℚ :=
  fiat + curits * h.curit_price + nomins * h.nomin_price

/-- Modelled from the spec: `FeeManager.transferred_fiat_received`,
`net = gross * (1 - fee_rate_fiat)`. -/
def transferred_fiat_received (h : Havven) (gross : ℚ) : ℚ :=
  gross * (1 - h.fiat_fee_rate)

/-- Modelled from the spec: `FeeManager.transferred_nomins_received`,
`net = gross * (1 - fee_rate_nomin)`. -/
def transferred_nomins_received (h : Havven) (gross : ℚ) : ℚ :=
  gross * (1 - h.nomin_fee_rate)

/-- Modelled from the spec: `FeeManager.transferred_curits_received`,
`net = gross * (1 - fee_rate_curit)`. -/
def transferred_curits_received (h : Havven) (gross : ℚ) : ℚ :=
  gross * (1 - h.curit_fee_rate)

/-- Modelled from the spec: `HavvenManager.round_decimal` (module `managers`
is not among the sources) rounds to the configured display precision; it is
used only for effectively-zero checks, so the exact tie-breaking rule is
immaterial to the claims below. -/
def round_decimal (precision : ℕ) (x : ℚ) : ℚ :=
  ((⌊x * 10 ^ precision + 1 / 2⌋ : ℤ) : ℚ) / 10 ^ precision

/-- Modelled from the spec: `OrderBook.lowest_ask_price` returns the best
resting ask price and fails with `EmptyBook` when the ask side is empty. -/
def OrderBook.lowest_ask_price (b : OrderBook) : Except SimError ℚ :=
  match b.ask_prices with
  | [] => .error .EmptyBook
  | p :: ps => .ok (ps.foldl min p)

/-- Modelled from the spec: `OrderBook.buy(quantity, buyer, premium)` places a
bid at `lowest_ask_price * (1 + premium)` for the requested quantity, failing
with `EmptyBook` against an empty ask side (matching after insertion is not
consulted by the claims, so only the created order is modelled). -/
def OrderBook.buy (b : OrderBook) (quantity : ℚ) (buyer_id : ℕ)
    (premium : ℚ) : Except SimError LimitOrder :=
  (b.lowest_ask_price).map fun p =>
    { side := .bid, price := p * (1 + premium), quantity := quantity,
      owner_id := buyer_id }

/-- Modelled from the spec: `OrderBook.bid(price, quantity, owner)` creates a
bid order with the requested price and quantity (matching after insertion is
not consulted by the claims, so only the created order is modelled). -/
def OrderBook.bid (_b : OrderBook) (price quantity : ℚ)
    (owner_id : ℕ) : LimitOrder :=
  { side := .bid, price := price, quantity := quantity, owner_id := owner_id }

/-- The mutable account state of `MarketPlayer` (translated from
`marketplayer.py`): balances, escrow/issuance counters, reservation
counters, the recorded initial wealth and the agent's unique id. -/
structure MarketPlayer where
  unique_id : ℕ
  fiat : ℚ
  curits : ℚ
  nomins : ℚ
  escrowed_curits : ℚ
  issued_nomins : ℚ
  used_fiat : ℚ
  used_curits : ℚ
  used_nomins : ℚ
  initial_wealth : ℚ
deriving DecidableEq, Repr

/-- `MarketPlayer.wealth`: total wealth at current fiat prices,
`fiat_value(curits + escrowed_curits, nomins - issued_nomins, fiat)`. -/
def wealth (h : Havven) (p : MarketPlayer) : ℚ :=
  fiat_value h (p.curits + p.escrowed_curits) (p.nomins - p.issued_nomins)
    p.fiat

/-- `MarketPlayer.__init__`: initial balances are the arguments, escrow,
issuance and all reservation counters start at zero, and `initial_wealth`
records `wealth()` of that state. -/
def mkMarketPlayer (h : Havven) (unique_id : ℕ)
    (fiat curits nomins : ℚ) : MarketPlayer :=
  let base : MarketPlayer :=
    { unique_id := unique_id, fiat := fiat, curits := curits,
      nomins := nomins, escrowed_curits := 0, issued_nomins := 0,
      used_fiat := 0, used_curits := 0, used_nomins := 0,
      initial_wealth := 0 }
  { base with initial_wealth := wealth h base }

/-- `MarketPlayer.available_fiat`: `fiat - used_fiat`. -/
def available_fiat (p : MarketPlayer) : ℚ := p.fiat - p.used_fiat

/-- `MarketPlayer.available_curits`: `curits - used_curits`. -/
def available_curits (p : MarketPlayer) : ℚ := p.curits - p.used_curits

/-- `MarketPlayer.available_nomins`: `nomins - used_nomins`. -/
def available_nomins (p : MarketPlayer) : ℚ := p.nomins - p.used_nomins

/-- `MarketPlayer._fraction_`: `max(qty / divisor, min(minimum, qty))`. -/
def fraction_of (qty : ℚ) (divisor : ℚ := 3) (minimum : ℚ := 1) : ℚ :=
  max (qty / divisor) (min minimum qty)

/-- `MarketPlayer.reset_initial_wealth`: returns the old `initial_wealth`
and the player with `initial_wealth` reset to the current `wealth()`. -/
def reset_initial_wealth (h : Havven) (p : MarketPlayer) :
    ℚ × MarketPlayer :=
  (p.initial_wealth, { p with initial_wealth := wealth h p })

/-- `MarketPlayer.profit`: `wealth() - initial_wealth`. -/
def profit (h : Havven) (p : MarketPlayer) : ℚ :=
  wealth h p - p.initial_wealth

/-- `MarketPlayer.profit_fraction`: `profit() / initial_wealth` when
`initial_wealth` rounded to display precision is nonzero, else `0`. -/
def profit_fraction (h : Havven) (p : MarketPlayer) : ℚ :=
  if round_decimal h.currency_precision p.initial_wealth ≠ 0 then
    profit h p / p.initial_wealth
  else 0

/-- `MarketPlayer.notify_cancelled`: the body is `pass` — no result, no
exception raised back into the core. -/
def notify_cancelled (_p : MarketPlayer) (_order : LimitOrder) :
    Except SimError Unit := .ok ()

/-- `MarketPlayer.notify_filled`: the body is `pass` — no result, no
exception raised back into the core. -/
def notify_filled (_p : MarketPlayer) (_order : LimitOrder) :
    Except SimError Unit := .ok ()

/-- `MarketPlayer._sell_quoted_`: read the book's lowest ask price (failing
with `EmptyBook` if the ask side is empty, in which case no order is placed),
then `buy(quantity / price)`. -/
def sell_quoted (book : OrderBook) (p : MarketPlayer)
    (quantity : ℚ) (premium : ℚ := 0) : Except SimError LimitOrder :=
  match book.lowest_ask_price with
  | .error e => .error e
  | .ok price => book.buy (quantity / price) p.unique_id premium

/-- `MarketPlayer._sell_quoted_with_fee_`: as `_sell_quoted_`, with the fee
function applied to `quantity / price`. -/
def sell_quoted_with_fee (received_qty_fn : ℚ → ℚ) (book : OrderBook)
    (p : MarketPlayer) (quantity : ℚ) (premium : ℚ := 0) :
    Except SimError LimitOrder :=
  match book.lowest_ask_price with
  | .error e => .error e
  | .ok price => book.buy (received_qty_fn (quantity / price)) p.unique_id premium

/-- `MarketPlayer.sell_nomins_for_curits`. -/
def sell_nomins_for_curits (h : Havven) (p : MarketPlayer)
    (quantity : ℚ) (premium : ℚ := 0) : Except SimError LimitOrder :=
  sell_quoted h.curit_nomin_market p quantity premium

/-- `MarketPlayer.sell_fiat_for_curits`. -/
def sell_fiat_for_curits (h : Havven) (p : MarketPlayer)
    (quantity : ℚ) (premium : ℚ := 0) : Except SimError LimitOrder :=
  sell_quoted h.curit_fiat_market p quantity premium

/-- `MarketPlayer.sell_fiat_for_nomins`. -/
def sell_fiat_for_nomins (h : Havven) (p : MarketPlayer)
    (quantity : ℚ) (premium : ℚ := 0) : Except SimError LimitOrder :=
  sell_quoted h.nomin_fiat_market p quantity premium

/-- `MarketPlayer.sell_nomins_for_curits_with_fee`. -/
def sell_nomins_for_curits_with_fee (h : Havven) (p : MarketPlayer)
    (quantity : ℚ) (premium : ℚ := 0) : Except SimError LimitOrder :=
  sell_quoted_with_fee (transferred_nomins_received h)
    h.curit_nomin_market p quantity premium

/-- `MarketPlayer.sell_fiat_for_curits_with_fee`. -/
def sell_fiat_for_curits_with_fee (h : Havven) (p : MarketPlayer)
    (quantity : ℚ) (premium : ℚ := 0) : Except SimError LimitOrder :=
  sell_quoted_with_fee (transferred_fiat_received h)
    h.curit_fiat_market p quantity premium

/-- `MarketPlayer.sell_fiat_for_nomins_with_fee`. -/
def sell_fiat_for_nomins_with_fee (h : Havven) (p : MarketPlayer)
    (quantity : ℚ) (premium : ℚ := 0) : Except SimError LimitOrder :=
  sell_quoted_with_fee (transferred_fiat_received h)
    h.nomin_fiat_market p quantity premium

/-- `MarketPlayer.place_curit_fiat_bid_with_fee`: the bid quantity is the fee
function applied to the requested quantity (not to the actually-transferred
quote amount `quantity * price`). -/
def place_curit_fiat_bid_with_fee (h : Havven) (p : MarketPlayer)
    (quantity price : ℚ) : LimitOrder :=
  let qty := transferred_fiat_received h quantity
  h.curit_fiat_market.bid price qty p.unique_id

/-- `MarketPlayer.place_curit_nomin_bid_with_fee`: the bid quantity is the
fee function applied to the requested quantity (not to the
actually-transferred quote amount `quantity * price`). -/
def place_curit_nomin_bid_with_fee (h : Havven) (p : MarketPlayer)
    (quantity price : ℚ) : LimitOrder :=
  let qty := transferred_nomins_received h quantity
  h.curit_nomin_market.bid price qty p.unique_id

/-- The `Banker` agent state: a `MarketPlayer` account, the two remembered
orders (both absent at construction) and the random trading `rate`. -/
structure Banker extends MarketPlayer where
  fiat_curit_order : Option LimitOrder
  nomin_curit_order : Option LimitOrder
  rate : ℚ
deriving DecidableEq, Repr

/-- `Banker.__init__`: the rate is `Dec(random.random() * 0.05)`, drawn from
the ambient global `random` module generator, which is not a constructor
argument; `ambient_draw` makes that ambient state explicit — it is the value
`random.random()` returns at construction time (embedded as an exact
rational; float rounding of the product is immaterial to the claims). -/
def mkBanker (h : Havven) (ambient_draw : ℚ) (unique_id : ℕ)
    (fiat curits nomins : ℚ) : Banker :=
  { mkMarketPlayer h unique_id fiat curits nomins with
    fiat_curit_order := none, nomin_curit_order := none,
    rate := ambient_draw * (5 / 100) }

/-- The specification's per-account conservation quantity, stated from the
spec's words for comparison with `wealth`: `fiat + curits + escrowed_curits
+ nomins - issued_nomins` valued at the current prices. -/
def spec_conserved_value (h : Havven) (p : MarketPlayer) : ℚ :=
  p.fiat + p.curits * h.curit_price + p.escrowed_curits * h.curit_price
    + p.nomins * h.nomin_price - p.issued_nomins * h.nomin_price

/-- A concrete model state whose three order books are all empty. -/
def havven0 : Havven :=
  { curit_price := 2, nomin_price := 1, fiat_fee_rate := 1 / 200,
    nomin_fee_rate := 1 / 100, curit_fee_rate := 1 / 50,
    curit_fiat_market := ⟨[]⟩, nomin_fiat_market := ⟨[]⟩,
    curit_nomin_market := ⟨[]⟩, currency_precision := 8 }

/-- A concrete model state whose three order books each hold one resting ask
at price 2. -/
def havven1 : Havven :=
  { havven0 with
    curit_fiat_market := ⟨[2]⟩, nomin_fiat_market := ⟨[2]⟩,
    curit_nomin_market := ⟨[2]⟩ }

/-- A concrete freshly constructed player holding 10 fiat. -/
def player0 : MarketPlayer := mkMarketPlayer havven0 0 10 0 0

/-- A concrete player whose exact initial wealth is nonzero yet rounds to
zero at the configured display precision. -/
def playerTiny : MarketPlayer :=
  { unique_id := 1, fiat := 0, curits := 0, nomins := 0,
    escrowed_curits := 0, issued_nomins := 0, used_fiat := 0,
    used_curits := 0, used_nomins := 0, initial_wealth := 1 / 10 ^ 9 }

/-- A concrete player whose initial wealth is 4 and does not round to zero. -/
def playerBig : MarketPlayer :=
  { unique_id := 2, fiat := 4, curits := 0, nomins := 0,
    escrowed_curits := 0, issued_nomins := 0, used_fiat := 0,
    used_curits := 0, used_nomins := 0, initial_wealth := 4 }

/-- Helper: `_sell_quoted_` against an empty ask side fails with `EmptyBook`
and places no order. -/
theorem sell_quoted_empty_book (b : OrderBook) (p : MarketPlayer)
    (qty prem : ℚ) (hb : b.ask_prices = []) :
    sell_quoted b p qty prem = .error .EmptyBook := by
  simp [sell_quoted, OrderBook.lowest_ask_price, hb]

/-- Helper: `_sell_quoted_` against a nonempty ask side places a bid for
`qty / price` at the best ask price marked up by the premium. -/
theorem sell_quoted_ok (b : OrderBook) (p : MarketPlayer) (qty prem pa : ℚ)
    (hb : b.lowest_ask_price = .ok pa) :
    sell_quoted b p qty prem =
      .ok ⟨.bid, pa * (1 + prem), qty / pa, p.unique_id⟩ := by
  simp [sell_quoted, OrderBook.buy, hb, Except.map]

/-- Helper: `_sell_quoted_with_fee_` against an empty ask side fails with
`EmptyBook` and places no order. -/
theorem sell_quoted_with_fee_empty_book (fn : ℚ → ℚ) (b : OrderBook)
    (p : MarketPlayer) (qty prem : ℚ) (hb : b.ask_prices = []) :
    sell_quoted_with_fee fn b p qty prem = .error .EmptyBook := by
  simp [sell_quoted_with_fee, OrderBook.lowest_ask_price, hb]

/-- Helper: `_sell_quoted_with_fee_` against a nonempty ask side places a bid
for `fn (qty / price)`. -/
theorem sell_quoted_with_fee_ok (fn : ℚ → ℚ) (b : OrderBook)
    (p : MarketPlayer) (qty prem pa : ℚ) (hb : b.lowest_ask_price = .ok pa) :
    sell_quoted_with_fee fn b p qty prem =
      .ok ⟨.bid, pa * (1 + prem), fn (qty / pa), p.unique_id⟩ := by
  simp [sell_quoted_with_fee, OrderBook.buy, hb, Except.map]

/-- C1: for every `MarketPlayer`, the derived balances equal balance minus
reservation: `available_fiat = fiat - used_fiat`, `available_curits =
curits - used_curits`, `available_nomins = nomins - used_nomins`. -/
theorem available_balances_are_balance_minus_reservation (p : MarketPlayer) :
    available_fiat p = p.fiat - p.used_fiat ∧
    available_curits p = p.curits - p.used_curits ∧
    available_nomins p = p.nomins - p.used_nomins :=
  ⟨rfl, rfl, rfl⟩

/-- C2: `wealth()` returns exactly the spec's conservation quantity for the
account — fiat plus `curits + escrowed_curits` plus `nomins - issued_nomins`
valued at current model prices, escrowed curits at full value and issued
nomins subtracted. -/
theorem wealth_eq_spec_conserved_value (h : Havven) (p : MarketPlayer) :
    wealth h p = spec_conserved_value h p := by
  simp only [wealth, fiat_value, spec_conserved_value]
  ring

/-- C6: the callbacks `notify_cancelled` and `notify_filled` return no value
and never raise an exception back into the core, for every player and every
order. -/
theorem notify_callbacks_return_unit_no_raise (p : MarketPlayer)
    (o : LimitOrder) :
    notify_cancelled p o = .ok () ∧ notify_filled p o = .ok () :=
  ⟨rfl, rfl⟩

/-- C7: immediately after construction with non-negative initial balances,
all reservation counters, escrowed curits and issued nomins are zero, the
no-over-reservation invariant `used_X ≤ X` holds, and every `available_X`
equals `X`. -/
theorem init_reservations_and_escrow_zero (h : Havven) (uid : ℕ)
    (fiat curits nomins : ℚ) (hf : 0 ≤ fiat) (hc : 0 ≤ curits)
    (hn : 0 ≤ nomins) :
    (mkMarketPlayer h uid fiat curits nomins).used_fiat = 0 ∧
    (mkMarketPlayer h uid fiat curits nomins).used_curits = 0 ∧
    (mkMarketPlayer h uid fiat curits nomins).used_nomins = 0 ∧
    (mkMarketPlayer h uid fiat curits nomins).escrowed_curits = 0 ∧
    (mkMarketPlayer h uid fiat curits nomins).issued_nomins = 0 ∧
    (mkMarketPlayer h uid fiat curits nomins).used_fiat ≤
      (mkMarketPlayer h uid fiat curits nomins).fiat ∧
    (mkMarketPlayer h uid fiat curits nomins).used_curits ≤
      (mkMarketPlayer h uid fiat curits nomins).curits ∧
    (mkMarketPlayer h uid fiat curits nomins).used_nomins ≤
      (mkMarketPlayer h uid fiat curits nomins).nomins ∧
    available_fiat (mkMarketPlayer h uid fiat curits nomins) = fiat ∧
    available_curits (mkMarketPlayer h uid fiat curits nomins) = curits ∧
    available_nomins (mkMarketPlayer h uid fiat curits nomins) = nomins := by
  refine ⟨rfl, rfl, rfl, rfl, rfl, ?_, ?_, ?_, ?_, ?_, ?_⟩
  · simpa [mkMarketPlayer] using hf
  · simpa [mkMarketPlayer] using hc
  · simpa [mkMarketPlayer] using hn
  · simp [available_fiat, mkMarketPlayer]
  · simp [available_curits, mkMarketPlayer]
  · simp [available_nomins, mkMarketPlayer]

/-- Witness for C7 at a concrete construction: balances 1, 2, 3 satisfy the
non-negativity hypotheses, and the reservation and availability conclusions
hold there. -/
theorem init_reservations_and_escrow_zero_witness :
    (mkMarketPlayer havven0 3 1 2 3).used_fiat = 0 ∧
    (mkMarketPlayer havven0 3 1 2 3).escrowed_curits = 0 ∧
    available_curits (mkMarketPlayer havven0 3 1 2 3) = 2 := by
  obtain ⟨h1, _, _, h4, _, _, _, _, _, h10, _⟩ :=
    init_reservations_and_escrow_zero havven0 3 1 2 3 (by norm_num)
      (by norm_num) (by norm_num)
  exact ⟨h1, h4, h10⟩

/-- C9: `reset_initial_wealth()` returns the previous `initial_wealth`, sets
`initial_wealth` to the current `wealth()`, and with prices and balances
unchanged `profit()` evaluated immediately afterwards is 0. -/
theorem reset_initial_wealth_returns_old_and_zeroes_profit (h : Havven)
    (p : MarketPlayer) :
    (reset_initial_wealth h p).1 = p.initial_wealth ∧
    (reset_initial_wealth h p).2.initial_wealth = wealth h p ∧
    profit h (reset_initial_wealth h p).2 = 0 := by
  refine ⟨rfl, rfl, ?_⟩
  simp [profit, reset_initial_wealth, wealth, fiat_value]

/-- C10: for non-negative `qty` and `divisor ≥ 1`, `_fraction_(qty, divisor,
minimum)` lies between `qty / divisor` and `qty` inclusive. -/
theorem fraction_of_between_div_and_qty (qty divisor minimum : ℚ)
    (hq : 0 ≤ qty) (hd : 1 ≤ divisor) :
    qty / divisor ≤ fraction_of qty divisor minimum ∧
    fraction_of qty divisor minimum ≤ qty :=
  ⟨le_max_left _ _, max_le (div_le_self hq hd) (min_le_right _ _)⟩

/-- Witness for C10 at `qty = 6`, `divisor = 3`, `minimum = 1`: the
hypotheses hold and `_fraction_` returns 2, between 2 and 6. -/
theorem fraction_of_between_div_and_qty_witness :
    (0 : ℚ) ≤ 6 ∧ (1 : ℚ) ≤ 3 ∧ fraction_of 6 3 1 = 2 ∧
    (6 : ℚ) / 3 ≤ fraction_of 6 3 1 ∧ fraction_of 6 3 1 ≤ 6 :=
  ⟨by norm_num, by norm_num, by norm_num [fraction_of],
    (fraction_of_between_div_and_qty 6 3 1 (by norm_num) (by norm_num)).1,
    (fraction_of_between_div_and_qty 6 3 1 (by norm_num) (by norm_num)).2⟩

/-- C3: the multiplicative fee commutes with scaling by the price — for
every quantity `q` and price `p > 0`, `transferred_X_received(q * p) / p =
transferred_X_received(q)` for each asset class; hence the with-fee
bid-placement methods, which apply the fee to the bid quantity `q` rather
than to the actually-transferred quote amount `q * p`, place a bid whose
quote-side cost `quantity * p` is exactly the net-of-fee value of `q * p`. -/
theorem fee_commutes_with_price_scaling (h : Havven) (pl : MarketPlayer)
    (q p : ℚ) (hp : 0 < p) :
    transferred_fiat_received h (q * p) / p = transferred_fiat_received h q ∧
    transferred_nomins_received h (q * p) / p
      = transferred_nomins_received h q ∧
    transferred_curits_received h (q * p) / p
      = transferred_curits_received h q ∧
    (place_curit_fiat_bid_with_fee h pl q p).quantity * p
      = transferred_fiat_received h (q * p) ∧
    (place_curit_nomin_bid_with_fee h pl q p).quantity * p
      = transferred_nomins_received h (q * p) := by
  have hp' : p ≠ 0 := ne_of_gt hp
  refine ⟨?_, ?_, ?_, ?_, ?_⟩
  · unfold transferred_fiat_received
    rw [div_eq_iff hp']
    ring
  · unfold transferred_nomins_received
    rw [div_eq_iff hp']
    ring
  · unfold transferred_curits_received
    rw [div_eq_iff hp']
    ring
  · simp only [place_curit_fiat_bid_with_fee, OrderBook.bid,
      transferred_fiat_received]
    ring
  · simp only [place_curit_nomin_bid_with_fee, OrderBook.bid,
      transferred_nomins_received]
    ring

/-- Witness for C3 at `q = 4`, `p = 2` in the concrete model state: the
positivity hypothesis holds, the fee commutes with the price there, and the
placed bid's quote cost is the net-of-fee transferred amount. -/
theorem fee_commutes_with_price_scaling_witness :
    (0 : ℚ) < 2 ∧
    transferred_fiat_received havven1 (4 * 2) / 2
      = transferred_fiat_received havven1 4 ∧
    (place_curit_fiat_bid_with_fee havven1 player0 4 2).quantity * 2
      = transferred_fiat_received havven1 (4 * 2) :=
  ⟨by norm_num,
    (fee_commutes_with_price_scaling havven1 player0 4 2 (by norm_num)).1,
    (fee_commutes_with_price_scaling havven1 player0 4 2
      (by norm_num)).2.2.2.1⟩

/-- C4 (amended): `Banker.rate` is drawn from the ambient global random
generator at construction (`rate = random.random() * 0.05`); it is a
function of the ambient draw alone, identical across constructions sharing
that draw, so reproducibility requires seeding the global generator, not
the constructor arguments. -/
theorem banker_rate_determined_by_ambient_draw (h h' : Havven) (draw : ℚ)
    (uid uid' : ℕ) (f c n f' c' n' : ℚ) :
    (mkBanker h draw uid f c n).rate = draw * (5 / 100) ∧
    (mkBanker h draw uid f c n).rate
      = (mkBanker h' draw uid' f' c' n').rate :=
  ⟨rfl, rfl⟩

/-- C4 counterexample: two Banker constructions with identical constructor
arguments but different ambient global generator states produce different
rates, so the rate is not drawn from a seeded source injected at
construction and equal constructor arguments do not guarantee equal
`Banker.rate`. -/
theorem banker_rate_ambient_counterexample :
    (mkBanker havven0 0 7 1 2 3).rate
      ≠ (mkBanker havven0 (1 / 2) 7 1 2 3).rate := by
  norm_num [mkBanker]

/-- C8: `profit_fraction()` is total and never divides by zero — when
`initial_wealth` rounded at the display precision is nonzero, the exact
`initial_wealth` is itself nonzero and the result is
`profit() / initial_wealth`; otherwise the result is exactly 0, even when
the exact `initial_wealth` is nonzero. -/
theorem profit_fraction_total_no_div_by_zero (h : Havven)
    (p : MarketPlayer) :
    (round_decimal h.currency_precision p.initial_wealth ≠ 0 →
      p.initial_wealth ≠ 0 ∧
      profit_fraction h p = profit h p / p.initial_wealth) ∧
    (round_decimal h.currency_precision p.initial_wealth = 0 →
      profit_fraction h p = 0) := by
  constructor
  · intro hne
    refine ⟨?_, ?_⟩
    · intro h0
      apply hne
      rw [h0]
      simp only [round_decimal, zero_mul, zero_add]
      norm_num
    · unfold profit_fraction
      rw [if_pos hne]
  · intro h0
    unfold profit_fraction
    rw [if_neg (not_not.mpr h0)]

/-- Witness for C8: a player whose exact initial wealth `10⁻⁹` is nonzero
yet rounds to zero gets `profit_fraction = 0`, and a player with initial
wealth 4 takes the division branch with a nonzero divisor. -/
theorem profit_fraction_total_no_div_by_zero_witness :
    playerTiny.initial_wealth ≠ 0 ∧
    round_decimal havven0.currency_precision playerTiny.initial_wealth
      = 0 ∧
    profit_fraction havven0 playerTiny = 0 ∧
    round_decimal havven0.currency_precision playerBig.initial_wealth
      ≠ 0 ∧
    playerBig.initial_wealth ≠ 0 ∧
    profit_fraction havven0 playerBig
      = profit havven0 playerBig / playerBig.initial_wealth := by
  have h0 : round_decimal havven0.currency_precision
      playerTiny.initial_wealth = 0 := by
    norm_num [round_decimal, havven0, playerTiny]
  have h4 : round_decimal havven0.currency_precision
      playerBig.initial_wealth ≠ 0 := by
    norm_num [round_decimal, havven0, playerBig]
  exact ⟨by norm_num [playerTiny], h0,
    (profit_fraction_total_no_div_by_zero havven0 playerTiny).2 h0, h4,
    ((profit_fraction_total_no_div_by_zero havven0 playerBig).1 h4).1,
    ((profit_fraction_total_no_div_by_zero havven0 playerBig).1 h4).2⟩

/-- C5: every quoted-currency sell operation sizes its bid off the book's
current lowest ask price — the resulting bid's requested quantity is the
quantity divided by that price, with the fee function applied first in the
`_with_fee` variants — and when the ask side of the relevant book is empty
the call fails with `EmptyBook` and no order is placed. -/
theorem sell_quoted_ops_quantity_and_empty_book (h : Havven)
    (p : MarketPlayer) (q prem : ℚ) :
    (h.curit_fiat_market.ask_prices = [] →
      sell_fiat_for_curits h p q prem = .error .EmptyBook) ∧
    (∀ pa, h.curit_fiat_market.lowest_ask_price = .ok pa →
      sell_fiat_for_curits h p q prem =
        .ok ⟨.bid, pa * (1 + prem), q / pa, p.unique_id⟩) ∧
    (h.curit_nomin_market.ask_prices = [] →
      sell_nomins_for_curits h p q prem = .error .EmptyBook) ∧
    (∀ pa, h.curit_nomin_market.lowest_ask_price = .ok pa →
      sell_nomins_for_curits h p q prem =
        .ok ⟨.bid, pa * (1 + prem), q / pa, p.unique_id⟩) ∧
    (h.nomin_fiat_market.ask_prices = [] →
      sell_fiat_for_nomins h p q prem = .error .EmptyBook) ∧
    (∀ pa, h.nomin_fiat_market.lowest_ask_price = .ok pa →
      sell_fiat_for_nomins h p q prem =
        .ok ⟨.bid, pa * (1 + prem), q / pa, p.unique_id⟩) ∧
    (h.curit_fiat_market.ask_prices = [] →
      sell_fiat_for_curits_with_fee h p q prem = .error .EmptyBook) ∧
    (∀ pa, h.curit_fiat_market.lowest_ask_price = .ok pa →
      sell_fiat_for_curits_with_fee h p q prem =
        .ok ⟨.bid, pa * (1 + prem), transferred_fiat_received h q / pa,
          p.unique_id⟩) ∧
    (h.curit_nomin_market.ask_prices = [] →
      sell_nomins_for_curits_with_fee h p q prem = .error .EmptyBook) ∧
    (∀ pa, h.curit_nomin_market.lowest_ask_price = .ok pa →
      sell_nomins_for_curits_with_fee h p q prem =
        .ok ⟨.bid, pa * (1 + prem), transferred_nomins_received h q / pa,
          p.unique_id⟩) ∧
    (h.nomin_fiat_market.ask_prices = [] →
      sell_fiat_for_nomins_with_fee h p q prem = .error .EmptyBook) ∧
    (∀ pa, h.nomin_fiat_market.lowest_ask_price = .ok pa →
      sell_fiat_for_nomins_with_fee h p q prem =
        .ok ⟨.bid, pa * (1 + prem), transferred_fiat_received h q / pa,
          p.unique_id⟩) := by
  refine ⟨fun hb => sell_quoted_empty_book _ _ _ _ hb,
    fun pa hpa => sell_quoted_ok _ _ _ _ _ hpa,
    fun hb => sell_quoted_empty_book _ _ _ _ hb,
    fun pa hpa => sell_quoted_ok _ _ _ _ _ hpa,
    fun hb => sell_quoted_empty_book _ _ _ _ hb,
    fun pa hpa => sell_quoted_ok _ _ _ _ _ hpa,
    fun hb => sell_quoted_with_fee_empty_book _ _ _ _ _ hb,
    fun pa hpa => ?_,
    fun hb => sell_quoted_with_fee_empty_book _ _ _ _ _ hb,
    fun pa hpa => ?_,
    fun hb => sell_quoted_with_fee_empty_book _ _ _ _ _ hb,
    fun pa hpa => ?_⟩
  · show sell_quoted_with_fee (transferred_fiat_received h)
      h.curit_fiat_market p q prem = _
    rw [sell_quoted_with_fee_ok _ _ _ _ _ _ hpa]
    simp only [transferred_fiat_received]
    rw [div_mul_eq_mul_div]
  · show sell_quoted_with_fee (transferred_nomins_received h)
      h.curit_nomin_market p q prem = _
    rw [sell_quoted_with_fee_ok _ _ _ _ _ _ hpa]
    simp only [transferred_nomins_received]
    rw [div_mul_eq_mul_div]
  · show sell_quoted_with_fee (transferred_fiat_received h)
      h.nomin_fiat_market p q prem = _
    rw [sell_quoted_with_fee_ok _ _ _ _ _ _ hpa]
    simp only [transferred_fiat_received]
    rw [div_mul_eq_mul_div]

/-- Witness for C5 at concrete states: against the empty book the sell
fails with `EmptyBook`, and against a book whose best ask is 2 a sell of 10
fiat places a bid for 5 curits (fee-adjusted in the with-fee variant). -/
theorem sell_quoted_ops_quantity_and_empty_book_witness :
    sell_fiat_for_curits havven0 player0 10 0 = .error .EmptyBook ∧
    sell_fiat_for_curits havven1 player0 10 0 = .ok ⟨.bid, 2, 5, 0⟩ ∧
    sell_fiat_for_curits_with_fee havven1 player0 10 0 =
      .ok ⟨.bid, 2, 199 / 40, 0⟩ :=
  ⟨(sell_quoted_ops_quantity_and_empty_book havven0 player0 10 0).1 rfl,
    ((sell_quoted_ops_quantity_and_empty_book havven1 player0 10 0).2.1
      2 rfl).trans (by norm_num [player0, mkMarketPlayer]),
    ((sell_quoted_ops_quantity_and_empty_book havven1 player0 10
      0).2.2.2.2.2.2.2.1 2 rfl).trans (by norm_num [transferred_fiat_received,
        havven1, havven0, player0, mkMarketPlayer])⟩

end Simulation
